import Mathlib

/-!
Shallow embedding of the AlgebraEnvironment term-rewriting core
(src/PropertyInheritance.py, src/Expression.py, src/Pattern.py, src/Rule.py)
and proofs settling the frozen claims about it.

Modelling conventions:
* Python `bool` is `Bool`; the source frequently applies the bitwise
  complement `~` to booleans, which in Python converts the boolean to the
  integer 0 or 1, complements it to -1 or -2, and is then used as a truthy
  integer.  This is modelled faithfully by `pyBool2Int`, `pyBitNot` and
  `intTruthy` rather than being silently repaired.
* Fallible Python code (raised exceptions) is modelled with
  `Except PyErr`; the `PyErr` constructor records the exception class.
* Python object identity: `PropertyInheritance`, `Expression` and
  `Pattern` define no `__eq__`, so `==` on them is reference equality.
  Each embedded node therefore carries a `refId` field standing for the
  object identity; reference equality (`propIs`, `pyExprEq`, `patIs`) is
  full structural equality of the trees including `refId` — distinct
  objects are given distinct ids at their allocation sites, so this agrees
  with `is`-style identity on well-formed object graphs.
* `PropertyInheritance._propertyHash` is the hash of the recursively built
  `fullName` string; equality of those hashes is modelled by `propHashEq`,
  structural equality of the property tree ignoring `refId`, which is
  exactly equality of the rendered `fullName` strings (the renderer is
  injective up to the ids; hash collisions are assumed away, as the class
  docstring itself prescribes fullName-based comparison).
* Python `set(...)` of tuples deduplicates by `==` on the components,
  i.e. by value on ints and by identity on expressions/patterns; this is
  `pyDedup` with the corresponding equality function.  Only the size of
  the set and, for `getPatternsOfIndices`, an index-unique fill are ever
  consumed, so the (hash-based) iteration order of a Python set is
  irrelevant and a list model is faithful.
-/

namespace AlgEnv

/-- Exception classes raised by the modelled code paths. -/
inductive PyErr where
  | typeError
  | valueError
  | indexError
  | attributeError
deriving DecidableEq

/-- Python booleans coerce to the integers 0 and 1 in arithmetic contexts. -/
def pyBool2Int (b : Bool) : Int := if b then 1 else 0

/-- Python `~x` on an integer is `-x - 1`. -/
def pyBitNot (i : Int) : Int := -i - 1

/-- Python truthiness of an integer: nonzero is truthy. -/
def intTruthy (i : Int) : Bool := i != 0

/-- Python list read `l[i]`: negative indices wrap once from the end,
anything else out of range raises `IndexError`. -/
def pyListGet {α : Type} (l : List α) (i : Int) : Except PyErr α :=
  let j : Int := if i < 0 then i + l.length else i
  if 0 ≤ j then
    match l.get? j.toNat with
    | some a => Except.ok a
    | none => Except.error PyErr.indexError
  else Except.error PyErr.indexError

/-- Python list write `l[i] = a`, with the same index semantics as reads. -/
def pyListSet {α : Type} (l : List α) (i : Int) (a : α) : Except PyErr (List α) :=
  let j : Int := if i < 0 then i + l.length else i
  if 0 ≤ j ∧ j < l.length then Except.ok (l.set j.toNat a)
  else Except.error PyErr.indexError

/-- Deduplication with an explicit equality test, modelling Python `set(...)`
construction; only the resulting element count and element retrieval are ever
consumed, both independent of a set's iteration order. -/
def pyDedup {α : Type} (eq : α → α → Bool) : List α → List α
  | [] => []
  | a :: l =>
    let d := pyDedup eq l
    if d.any (eq a) then d else a :: d

/-- Python `len(set(l))` under the equality test `eq`. -/
def pyCountDistinct {α : Type} (eq : α → α → Bool) (l : List α) : Nat :=
  (pyDedup eq l).length

/-- src/PropertyInheritance.py: a property with a name and the list of
properties it directly inherits from.  `refId` models object identity. -/
inductive PropertyInheritance where
  | mk (name : String) (inheritedProperties : List PropertyInheritance) (refId : Nat)

def PropertyInheritance.name : PropertyInheritance → String
  | .mk n _ _ => n

def PropertyInheritance.inheritedProperties : PropertyInheritance → List PropertyInheritance
  | .mk _ ps _ => ps

def PropertyInheritance.refId : PropertyInheritance → Nat
  | .mk _ _ r => r

mutual
/-- Equality of `_propertyHash` values, i.e. of the recursively rendered
`fullName` strings: same name and pointwise equal parents, ignoring object
identity. -/
def propHashEq : PropertyInheritance → PropertyInheritance → Bool
  | .mk n1 ps1 _, .mk n2 ps2 _ => n1 == n2 && propHashEqList ps1 ps2
def propHashEqList : List PropertyInheritance → List PropertyInheritance → Bool
  | [], [] => true
  | _ :: _, [] => false
  | [], _ :: _ => false
  | a :: as, b :: bs => propHashEq a b && propHashEqList as bs
end

mutual
/-- Python `==` on `PropertyInheritance` objects: the class defines no
`__eq__`, so this is reference equality — full tree equality with ids. -/
def propIs : PropertyInheritance → PropertyInheritance → Bool
  | .mk n1 ps1 r1, .mk n2 ps2 r2 => n1 == n2 && propIsList ps1 ps2 && r1 == r2
/-- Python `==` on lists of properties (element-wise `propIs`). -/
def propIsList : List PropertyInheritance → List PropertyInheritance → Bool
  | [], [] => true
  | _ :: _, [] => false
  | [], _ :: _ => false
  | a :: as, b :: bs => propIs a b && propIsList as bs
end

mutual
/-- src/PropertyInheritance.py `inheritsPropertiesList` (lines 54-78):
collect, walking upward through the inheritance graph, the found targets.
If the current node's hash is not among the target hashes, recurse into all
parents; on a hit return `[self]` when the check is shallow, otherwise
`self` followed by the parents' results. -/
def inheritsPropertiesList (p : PropertyInheritance) (props : List PropertyInheritance)
    (deepCheck : Bool) : List PropertyInheritance :=
  match p with
  | .mk n ps r =>
    if !(props.any (fun q => propHashEq q (.mk n ps r))) then
      inheritsPropertiesListOver ps props deepCheck
    else if !deepCheck then [.mk n ps r]
    else .mk n ps r :: inheritsPropertiesListOver ps props deepCheck
/-- The `sum((inheritedProperty.inheritsPropertiesList(...) for ...), [])`
concatenation over the direct parents. -/
def inheritsPropertiesListOver (ps : List PropertyInheritance)
    (props : List PropertyInheritance) (deepCheck : Bool) : List PropertyInheritance :=
  match ps with
  | [] => []
  | p :: rest =>
    inheritsPropertiesList p props deepCheck ++ inheritsPropertiesListOver rest props deepCheck
end

/-- src/PropertyInheritance.py `inheritsProperties` (lines 80-90):
`properties == self.inheritsPropertiesList(properties, deepCheck)`, a Python
list comparison whose element comparison is reference equality. -/
def inheritsProperties (p : PropertyInheritance) (props : List PropertyInheritance)
    (deepCheck : Bool) : Bool :=
  propIsList props (inheritsPropertiesList p props deepCheck)

/-- src/Expression.py: an expression node with a name, a property, argument
expressions, and its object identity. -/
inductive Expression where
  | mk (name : String) (propertyInheritance : PropertyInheritance)
      (expressions : List Expression) (refId : Nat)

def Expression.name : Expression → String
  | .mk n _ _ _ => n

def Expression.propertyInheritance : Expression → PropertyInheritance
  | .mk _ p _ _ => p

def Expression.expressions : Expression → List Expression
  | .mk _ _ es _ => es

def Expression.refId : Expression → Nat
  | .mk _ _ _ r => r

mutual
/-- Python `==` on `Expression` objects: the class defines no `__eq__`, so
this is reference equality — full tree equality with ids. -/
def pyExprEq : Expression → Expression → Bool
  | .mk n1 p1 c1 r1, .mk n2 p2 c2 r2 =>
    n1 == n2 && propIs p1 p2 && pyExprEqList c1 c2 && r1 == r2
def pyExprEqList : List Expression → List Expression → Bool
  | [], [] => true
  | _ :: _, [] => false
  | [], _ :: _ => false
  | a :: as, b :: bs => pyExprEq a b && pyExprEqList as bs
end

mutual
/-- Modelled from the spec: structural equality of expressions, as §3 and
§4.2 of the specification describe it (equal names, equal properties in the
fullName sense, recursively equal children), independent of object identity.
The source defines no such operation; this definition exists to compare the
code's actual equality against the specified one. -/
def structEq : Expression → Expression → Bool
  | .mk n1 p1 c1 _, .mk n2 p2 c2 _ =>
    n1 == n2 && propHashEq p1 p2 && structEqList c1 c2
def structEqList : List Expression → List Expression → Bool
  | [], [] => true
  | _ :: _, [] => false
  | [], _ :: _ => false
  | a :: as, b :: bs => structEq a b && structEqList as bs
end

/-- src/Pattern.py: a pattern node.  Field order follows the constructor:
optional name constraint, required property, optional capture index,
optional literal expression, child patterns, arity-strictness flag; `refId`
models object identity. -/
inductive Pattern where
  | mk (name : Option String) (propertyInheritance : PropertyInheritance)
      (index : Option Int) (expression : Option Expression)
      (childPatterns : List Pattern) (checkLabels : Bool) (refId : Nat)

def Pattern.name : Pattern → Option String
  | .mk n _ _ _ _ _ _ => n

def Pattern.propertyInheritance : Pattern → PropertyInheritance
  | .mk _ p _ _ _ _ _ => p

def Pattern.index : Pattern → Option Int
  | .mk _ _ i _ _ _ _ => i

def Pattern.expression : Pattern → Option Expression
  | .mk _ _ _ e _ _ _ => e

def Pattern.childPatterns : Pattern → List Pattern
  | .mk _ _ _ _ cs _ _ => cs

def Pattern.checkLabels : Pattern → Bool
  | .mk _ _ _ _ _ cl _ => cl

def Pattern.refId : Pattern → Nat
  | .mk _ _ _ _ _ _ r => r

mutual
/-- Python `==` on `Pattern` objects (no `__eq__` defined): reference
equality — full tree equality with ids. -/
def patIs : Pattern → Pattern → Bool
  | .mk n1 p1 i1 e1 c1 l1 r1, .mk n2 p2 i2 e2 c2 l2 r2 =>
    n1 == n2 && propIs p1 p2 && i1 == i2 &&
      (match e1, e2 with
       | none, none => true
       | some a, some b => pyExprEq a b
       | _, _ => false) &&
      patIsList c1 c2 && l1 == l2 && r1 == r2
def patIsList : List Pattern → List Pattern → Bool
  | [], [] => true
  | _ :: _, [] => false
  | [], _ :: _ => false
  | a :: as, b :: bs => patIs a b && patIsList as bs
end

/-- src/Pattern.py `Pattern.__init__` (lines 9-55): validation performed at
construction.  The guard `if index < 0:` is executed for every call, so a
call with `index=None` compares `None` with an integer and raises
`TypeError` in Python 3. -/
def makePattern (name : Option String) (propertyInheritance : PropertyInheritance)
    (index : Option Int) (expression : Option Expression)
    (childPatterns : List Pattern) (checkLabels : Bool) (refId : Nat) :
    Except PyErr Pattern :=
  if !(index.isNone || expression.isNone) then Except.error PyErr.typeError
  else if (match expression with
           | some ex => !(inheritsProperties propertyInheritance
               [ex.propertyInheritance] false)
           | none => false) then Except.error PyErr.typeError
  else
    match index with
    | none => Except.error PyErr.typeError
    | some i =>
      if i < 0 then Except.error PyErr.valueError
      else Except.ok (Pattern.mk name propertyInheritance index expression
        childPatterns checkLabels refId)

mutual
/-- src/Pattern.py `getIndexList` (lines 72-75): this node's index, if any,
followed by the children's index lists. -/
def getIndexList : Pattern → List Int
  | .mk _ _ idx _ cs _ _ =>
    (match idx with | some i => [i] | none => []) ++ getIndexListOver cs
def getIndexListOver : List Pattern → List Int
  | [] => []
  | c :: cs => getIndexList c ++ getIndexListOver cs
end

mutual
/-- src/Pattern.py `_getPatternsOfIndicesRaw` (lines 83-85): index/pattern
pairs for every indexed node.  The Python `sum(generator, start)` places the
start element (this node's own pair) before the children's contributions. -/
def getPatternsOfIndicesRaw : Pattern → List (Int × Pattern)
  | .mk n p idx e cs l r =>
    (match idx with
     | some i => [(i, Pattern.mk n p idx e cs l r)]
     | none => []) ++ getPatternsOfIndicesRawOver cs
def getPatternsOfIndicesRawOver : List Pattern → List (Int × Pattern)
  | [] => []
  | c :: cs => getPatternsOfIndicesRaw c ++ getPatternsOfIndicesRawOver cs
end

/-- Python `==` on `(int, Pattern)` tuples, as used by the `set(...)` calls
in `getPatternsOfIndices`. -/
def rawPairEq (a b : Int × Pattern) : Bool := a.1 == b.1 && patIs a.2 b.2

/-- Python `==` on `(int, Expression)` tuples, as used by the `set(...)`
calls in the collision checks. -/
def recPairEq (a b : Int × Expression) : Bool := a.1 == b.1 && pyExprEq a.2 b.2

/-- Python `==` on `int` values. -/
def intEq (a b : Int) : Bool := a == b

/-- src/Pattern.py `getPatternsOfIndices` (lines 93-108): consistency count
check, then a sparse array fill.  The array is allocated as
`[None]*maxIndex` — one slot too short — so the assignment at the maximal
index raises `IndexError` whenever the pattern contains any index at all. -/
def getPatternsOfIndices (p : Pattern) :
    Except PyErr (List (Option Pattern) × Bool) :=
  let raw := pyDedup rawPairEq (getPatternsOfIndicesRaw p)
  let indices := pyDedup intEq (getIndexList p)
  if raw.length != indices.length then Except.ok ([], false)
  else
    let maxIndex : Int := raw.foldl (fun m t => if t.1 > m then t.1 else m) 0
    let start : List (Option Pattern) := List.replicate maxIndex.toNat none
    match raw.foldlM (fun acc t => pyListSet acc t.1 (some t.2)) start with
    | Except.ok filled => Except.ok (filled, true)
    | Except.error e => Except.error e

/-- src/Pattern.py `checkExpressionWithPatternProperties` (lines 205-234):
the local (single-node) part of the shape check.  Note that a literal match
does not short-circuit: the name, property and arity checks still follow,
and the literal comparison `patternExpression != expression` is reference
equality. -/
def checkExpressionWithPatternProperties (p : Pattern) (e : Expression) : Bool :=
  (match p.expression with
   | some lit => pyExprEq lit e
   | none => true) &&
  (match p.name with
   | some n => n == e.name
   | none => true) &&
  inheritsProperties e.propertyInheritance [p.propertyInheritance] false &&
  !(decide (e.expressions.length < p.childPatterns.length) ||
    (decide (e.expressions.length > p.childPatterns.length) && p.checkLabels))

mutual
/-- src/Pattern.py `checkPatternProperties` (lines 270-294): the local check
at this node, then the same check for each child pattern against the
positionally corresponding argument expression. -/
def checkPatternProperties (p : Pattern) (e : Expression) : Bool :=
  match p with
  | .mk n pr idx ex cs l r =>
    checkExpressionWithPatternProperties (.mk n pr idx ex cs l r) e &&
      checkPatternPropertiesOver cs e.expressions
/-- The child loop of `checkPatternProperties`; it runs only after the local
check guaranteed at least as many expressions as child patterns, so
truncation at the shorter list is unreachable and harmless. -/
def checkPatternPropertiesOver : List Pattern → List Expression → Bool
  | [], _ => true
  | _ :: _, [] => true
  | c :: cs, e :: es => checkPatternProperties c e && checkPatternPropertiesOver cs es
end

/-- src/Expression.py `checkSelfWithPatternProperties` (lines 137-165): the
Expression-side local check.  Its property test is guarded with the bitwise
`~`, `if ~self._propertyInheritance.inheritsProperties(...): return False`,
which is truthy for both boolean outcomes, so control can never reach the
arity check and the function returns `False` for every input. -/
def checkSelfWithPatternProperties (e : Expression) (p : Pattern) : Bool :=
  (match p.expression with
   | some lit => pyExprEq lit e
   | none => true) &&
  (match p.name with
   | some n => n == e.name
   | none => true) &&
  !(intTruthy (pyBitNot (pyBool2Int
      (inheritsProperties e.propertyInheritance [p.propertyInheritance] false)))) &&
  !(decide (e.expressions.length < p.childPatterns.length) ||
    (decide (e.expressions.length > p.childPatterns.length) && p.checkLabels))

/-- src/Pattern.py `patternCollisionCheck` (lines 188-203) and the identical
formula of the static `Expression.patternCollisionCheck` (src/Expression.py
lines 121-135): `len(set(expressionsRecord)) == len(set(indexList))` with
tuple equality meaning value equality on the index and reference equality on
the expression. -/
def patternCollisionCheck (p : Pattern) (expressionsRecord : List (Int × Expression)) : Bool :=
  pyCountDistinct recPairEq expressionsRecord == pyCountDistinct intEq (getIndexList p)

mutual
/-- src/Expression.py `getExpressionsFromPattern` (lines 76-119): the
Expression-side capture extraction.  Its self-check guard is
`if ~self.checkSelfWithPatternProperties(pattern): raise ValueError(...)`,
truthy for both outcomes, so every call raises `ValueError`; the remainder
is modelled faithfully all the same. -/
def exprGetExpressionsFromPattern (e : Expression) (p : Pattern) :
    Except PyErr (List (Int × Expression) × Bool) :=
  match e, p with
  | .mk n pr es r, p =>
    let self : Expression := .mk n pr es r
    if intTruthy (pyBitNot (pyBool2Int (checkSelfWithPatternProperties self p))) then
      Except.error PyErr.valueError
    else if p.expression.isSome then Except.ok ([], true)
    else
      let selfRecord : List (Int × Expression) :=
        match p.index with | some i => [(i, self)] | none => []
      match exprGetExpressionsFromPatternOver es p.childPatterns with
      | Except.error err => Except.error err
      | Except.ok (childRecords, noConflicts) =>
        Except.ok (selfRecord ++ childRecords,
          patternCollisionCheck p (selfRecord ++ childRecords) && noConflicts)
/-- The child loop of the Expression-side capture extraction: it iterates
over the child patterns, reads `self._expressions[index]` (raising
`IndexError` past the end), concatenates the child records, and — as in the
source — overwrites `noConflicts` with each child's flag instead of
conjoining, so the returned flag is the last child's (or `True` with no
children). -/
def exprGetExpressionsFromPatternOver : List Expression → List Pattern →
    Except PyErr (List (Int × Expression) × Bool)
  | _, [] => Except.ok ([], true)
  | [], _ :: _ => Except.error PyErr.indexError
  | e :: es, c :: cs =>
    match exprGetExpressionsFromPattern e c with
    | Except.error err => Except.error err
    | Except.ok childResult =>
      match exprGetExpressionsFromPatternOver es cs with
      | Except.error err => Except.error err
      | Except.ok rest =>
        Except.ok (childResult.1 ++ rest.1,
          if cs.isEmpty then childResult.2 else rest.2)
end

/-- src/Pattern.py `getExpressionsFromPattern` (lines 143-186): the
Pattern-side capture extraction.  Its own guard uses a correct `not`, but
the recursion for each child dispatches to the Expression-side method
(`expression.getExpressions()[index].getExpressionsFromPattern(...)`), whose
always-truthy `~` guard raises `ValueError`, so any pattern with child
patterns makes this raise. -/
def patGetExpressionsFromPattern (p : Pattern) (e : Expression) :
    Except PyErr (List (Int × Expression) × Bool) :=
  if !(checkExpressionWithPatternProperties p e) then Except.error PyErr.valueError
  else if p.expression.isSome then Except.ok ([], true)
  else
    let selfRecord : List (Int × Expression) :=
      match p.index with | some i => [(i, e)] | none => []
    match exprGetExpressionsFromPatternOver e.expressions p.childPatterns with
    | Except.error err => Except.error err
    | Except.ok (childRecords, noConflicts) =>
      Except.ok (selfRecord ++ childRecords,
        patternCollisionCheck p (selfRecord ++ childRecords) && noConflicts)

mutual
/-- src/Pattern.py `expressionFromReplacements` (lines 110-141): build an
expression from the pattern and the sparse replacement list.  The seed is
the pattern's literal or `indexReplacements[self._index]`; reading a `None`
slot raises (`AttributeError` on the subsequent `.getName()`).  This is the
value-level model of the returned expression; the Python-level aliasing of
the seed's child list is treated separately by the heap model below. -/
def expressionFromReplacements (p : Pattern) (indexReplacements : List (Option Expression)) :
    Except PyErr Expression :=
  match p with
  | .mk _ _ idx ex cs _ _ =>
    if idx.isNone && ex.isNone then Except.error PyErr.valueError
    else
      match (match ex with
             | some t => Except.ok t
             | none =>
               match idx with
               | some i =>
                 (match pyListGet indexReplacements i with
                  | Except.error err => Except.error err
                  | Except.ok none => Except.error PyErr.attributeError
                  | Except.ok (some t) => Except.ok t)
               | none => Except.error PyErr.valueError : Except PyErr Expression) with
      | Except.error err => Except.error err
      | Except.ok target =>
        match expressionFromReplacementsLoop cs indexReplacements target.expressions 0 with
        | Except.error err => Except.error err
        | Except.ok kids =>
          Except.ok (Expression.mk target.name target.propertyInheritance kids 0)
/-- The child loop of `expressionFromReplacements`: instantiate each child
pattern and write it over the positionally corresponding seed child
(`expressions[index] = childExpression`). -/
def expressionFromReplacementsLoop : List Pattern → List (Option Expression) →
    List Expression → Int → Except PyErr (List Expression)
  | [], _, acc, _ => Except.ok acc
  | c :: cs, repl, acc, i =>
    match expressionFromReplacements c repl with
    | Except.error err => Except.error err
    | Except.ok childExpression =>
      match pyListSet acc i childExpression with
      | Except.error err => Except.error err
      | Except.ok acc2 => expressionFromReplacementsLoop cs repl acc2 (i + 1)
end

/-- src/Rule.py: a rule is a name with an input and an output pattern. -/
structure Rule where
  name : String
  inputPattern : Pattern
  outputPattern : Pattern

/-- The per-index loop of `checkValidRule` (src/Rule.py lines 68-77) over
the positionally paired entries of the two sparse pattern arrays: a `None`
input slot returns `False`; a `None` output slot would have its
`getPropertyInheritance()` taken, raising `AttributeError`; and the variance
test is guarded by the always-truthy `~`, so any surviving pair returns
`False`. -/
def checkValidRuleLoop : List (Option Pattern × Option Pattern) → Except PyErr Bool
  | [] => Except.ok true
  | (iopt, oopt) :: rest =>
    match iopt with
    | none => Except.ok false
    | some ip =>
      match oopt with
      | none => Except.error PyErr.attributeError
      | some op =>
        if intTruthy (pyBitNot (pyBool2Int (inheritsProperties ip.propertyInheritance
            [op.propertyInheritance] false))) then Except.ok false
        else checkValidRuleLoop rest

/-- src/Rule.py `checkValidRule` (lines 44-79).  Two source slips are kept:
both sparse structures are read from the input pattern (line 55), and the
two consistency flags are tested through `~...|~...`, which is truthy for
every combination, so the check returns `False` whenever the structure
extraction itself did not raise. -/
def checkValidRule (inputPattern outputPattern : Pattern) : Except PyErr Bool :=
  match getPatternsOfIndices inputPattern with
  | Except.error err => Except.error err
  | Except.ok inputPatternsStruct =>
    match getPatternsOfIndices inputPattern with
    | Except.error err => Except.error err
    | Except.ok outputPatternsStruct =>
      if intTruthy (Int.lor (pyBitNot (pyBool2Int inputPatternsStruct.2))
          (pyBitNot (pyBool2Int outputPatternsStruct.2))) then Except.ok false
      else
        let inputPatterns := inputPatternsStruct.1
        let outputPatterns := outputPatternsStruct.1
        if outputPatterns.length > inputPatterns.length then Except.ok false
        else checkValidRuleLoop (inputPatterns.zip outputPatterns)

/-- src/Rule.py `Rule.__init__` (lines 10-30): run `checkValidRule` and
raise `ValueError` when `~self.checkValidRule()` is truthy — which it is for
both boolean results, so no rule is ever constructed. -/
def makeRule (name : String) (inputPattern outputPattern : Pattern) : Except PyErr Rule :=
  match checkValidRule inputPattern outputPattern with
  | Except.error err => Except.error err
  | Except.ok v =>
    if intTruthy (pyBitNot (pyBool2Int v)) then Except.error PyErr.valueError
    else Except.ok (Rule.mk name inputPattern outputPattern)

/-- src/Rule.py `applyRule` (lines 81-120).  The match test on line 99 is
`if ~inputPattern.checkPatternProperties(expression): return expression`,
truthy for both outcomes, so the original expression is always returned; the
rewrite branch — including the `[None]*maxIndex` off-by-one replacement
array — is modelled but unreachable. -/
def Rule.applyRule (rule : Rule) (expression : Expression) : Except PyErr Expression :=
  let inputPattern := rule.inputPattern
  let outputPattern := rule.outputPattern
  if intTruthy (pyBitNot (pyBool2Int (checkPatternProperties inputPattern expression))) then
    Except.ok expression
  else
    match patGetExpressionsFromPattern inputPattern expression with
    | Except.error err => Except.error err
    | Except.ok indexReplacements =>
      if intTruthy (pyBitNot (pyBool2Int indexReplacements.2)) then Except.ok expression
      else
        let maxIndex : Int :=
          indexReplacements.1.foldl (fun m t => if t.1 > m then t.1 else m) 0
        let start : List (Option Expression) := List.replicate maxIndex.toNat none
        match indexReplacements.1.foldlM
            (fun acc t => pyListSet acc t.1 (some t.2)) start with
        | Except.error err => Except.error err
        | Except.ok replacementList =>
          expressionFromReplacements outputPattern replacementList

/-- Heap model of an expression object: `expressionFromReplacements` reads
`expressions = targetExpression.getExpressions()` — the target's own child
list, not a copy — and then assigns `expressions[index] = childExpression`
through that alias.  To observe this effect the expressions involved are
modelled as numbered heap nodes whose children are node references. -/
structure ENode where
  name : String
  prop : PropertyInheritance
  children : List Nat

/-- A heap of expression objects; a reference is a position in the list, and
`Expression(...)` construction appends a node. -/
abbrev EHeap := List ENode

/-- The pattern fields actually consumed by `expressionFromReplacements`:
its capture index, its literal (as a heap reference), and its child
patterns.  Name, property and `checkLabels` are never read there. -/
inductive HPattern where
  | mk (index : Option Int) (lit : Option Nat) (children : List HPattern)

mutual
/-- src/Pattern.py `expressionFromReplacements` (lines 110-141), heap level:
the same control flow as the value model, but recording that the child-loop
assignments write through the seed expression's aliased child list, mutating
the seed — the pattern's stored literal or a captured expression — in
place, before a node for the new expression is allocated. -/
def hExpressionFromReplacements (p : HPattern) (repl : List (Option Nat)) (h : EHeap) :
    Except PyErr (Nat × EHeap) :=
  match p with
  | .mk idx lit cs =>
    if idx.isNone && lit.isNone then Except.error PyErr.valueError
    else
      match (match lit with
             | some r => Except.ok r
             | none =>
               match idx with
               | some i =>
                 (match pyListGet repl i with
                  | Except.error err => Except.error err
                  | Except.ok none => Except.error PyErr.attributeError
                  | Except.ok (some r) => Except.ok r)
               | none => Except.error PyErr.valueError : Except PyErr Nat) with
      | Except.error err => Except.error err
      | Except.ok target =>
        match pyListGet (α := ENode) h target with
        | Except.error err => Except.error err
        | Except.ok node =>
          match hExpressionFromReplacementsLoop cs repl target 0 h with
          | Except.error err => Except.error err
          | Except.ok h2 =>
            match pyListGet (α := ENode) h2 target with
            | Except.error err => Except.error err
            | Except.ok node2 =>
              Except.ok (h2.length,
                h2 ++ [ENode.mk node.name node.prop node2.children])
/-- The child loop at heap level: instantiate each child pattern (threading
the heap), then perform `expressions[index] = childExpression` on the
target node's child list in place. -/
def hExpressionFromReplacementsLoop : List HPattern → List (Option Nat) →
    Nat → Int → EHeap → Except PyErr EHeap
  | [], _, _, _, h => Except.ok h
  | c :: cs, repl, target, i, h =>
    match hExpressionFromReplacements c repl h with
    | Except.error err => Except.error err
    | Except.ok (childRef, h2) =>
      match pyListGet (α := ENode) h2 target with
      | Except.error err => Except.error err
      | Except.ok node =>
        match pyListSet node.children i childRef with
        | Except.error err => Except.error err
        | Except.ok kids2 =>
          hExpressionFromReplacementsLoop cs repl target (i + 1)
            (h2.set target (ENode.mk node.name node.prop kids2))
end

/-! Concrete lattice, expressions, patterns and rules used by the claims'
scenarios.  Distinct `refId`s model distinct allocation sites. -/

/-- The `Operator` property of scenarios S1/S2. -/
def OperatorP : PropertyInheritance := .mk "Operator" [] 0

/-- `Hermitian <: Operator`. -/
def HermitianP : PropertyInheritance := .mk "Hermitian" [OperatorP] 1

/-- A Function-like property below `Operator`, for scenario S2's output. -/
def FunctionP : PropertyInheritance := .mk "Function" [OperatorP] 2

/-- An isolated property `A` (no parents). -/
def AP : PropertyInheritance := .mk "A" [] 3

/-- An isolated property `B`, unrelated to `A`. -/
def BP : PropertyInheritance := .mk "B" [] 4

/-- Diamond lattice: `dB <: dA`, `dC <: dA`, `dD <: dB, dC`, so `dA` is
reachable from `dD` along two paths. -/
def dA : PropertyInheritance := .mk "dA" [] 5

def dB : PropertyInheritance := .mk "dB" [dA] 6

def dC : PropertyInheritance := .mk "dC" [dA] 7

def dD : PropertyInheritance := .mk "dD" [dB, dC] 8

/-- The expression `X`, a Hermitian leaf (scenarios S1/S2). -/
def Xexpr : Expression := .mk "X" HermitianP [] 0

/-- The expression `Y`, a second Hermitian leaf. -/
def Yexpr : Expression := .mk "Y" HermitianP [] 1

/-- A leaf of property `Operator` itself. -/
def XOp : Expression := .mk "XO" OperatorP [] 2

/-- An `A`-leaf named `X`: one of two structurally equal, distinct objects. -/
def eX1 : Expression := .mk "X" AP [] 3

/-- The other `A`-leaf named `X`: structurally equal to `eX1`, different
object. -/
def eX2 : Expression := .mk "X" AP [] 4

/-- The `Add` property for scenario S3. -/
def AddP : PropertyInheritance := .mk "Add" [] 9

/-- The expression `Add(X, Y)` with `X ≠ Y`. -/
def AddXY : Expression := .mk "Add" AddP [Xexpr, Yexpr] 5

/-- Typed hole `[*:Operator @ index 0]` — the input pattern of S1/S2. -/
def hole0Op : Pattern := .mk none OperatorP (some 0) none [] false 0

/-- A second typed hole `@0` of property `Operator`, used as an output-side
node (a distinct pattern object). -/
def hole0Op2 : Pattern := .mk none OperatorP (some 0) none [] false 1

/-- The output pattern `[f:Operator(@0)]` of scenario S2: a Function-like
node with neither index nor literal, and one child hole `@0`. -/
def wrapOut : Pattern := .mk (some "f") FunctionP none none [hole0Op2] false 2

/-- The rule `wrap` of scenario S2 (built directly; `makeRule` cannot
succeed on any input, as the C1 theorem shows). -/
def wrapRule : Rule := Rule.mk "wrap" hole0Op wrapOut

/-- The identity rule of scenario S1: `@0:Operator` to `@0:Operator`. -/
def idRule : Rule := Rule.mk "id" hole0Op hole0Op2

/-- The expression `f(X)` that scenario S2 expects `applyRule(wrap, X)` to
produce. -/
def fX : Expression := .mk "f" FunctionP [Xexpr] 6

/-- The non-linear pattern `Add(@0, @0)` of scenario S3. -/
def addPat : Pattern := .mk none AddP none none
  [.mk none OperatorP (some 0) none [] false 3,
   .mk none OperatorP (some 0) none [] false 4] false 5

/-- A literal-anchor pattern whose own property `B` is not satisfied by its
literal `eX1` (whose property is `A`). -/
def pLitB : Pattern := .mk none BP none (some eX1) [] false 6

/-- A literal-anchor pattern for `eX1` with matching property `A`. -/
def pLitA : Pattern := .mk none AP none (some eX1) [] false 7

/-- A literal pattern with property `Operator` whose literal is the
`Hermitian` leaf `X` (literal's property is a strict subtype of the
pattern's). -/
def pLitOpX : Pattern := .mk none OperatorP none (some Xexpr) [] false 8

/-- A mismatching input pattern (property `B` against `A`-expressions),
used to exercise the non-match branch of `applyRule`. -/
def holeB : Pattern := .mk none BP (some 0) none [] false 9

/-- A rule whose input pattern does not match `eX1`. -/
def ruleB : Rule := Rule.mk "rb" holeB holeB

/-- Heap for the mutation scenario: node 0 is the leaf `a`, node 1 is the
expression `g(a)` (stored as a pattern literal), node 2 is the leaf `b`. -/
def mutHeap : EHeap := [ENode.mk "a" AP [], ENode.mk "g" AP [0], ENode.mk "b" AP []]

/-- Output pattern for the mutation scenario: literal `g(a)` (node 1) with
one child pattern that is the literal `b` (node 2). -/
def mutPat : HPattern := .mk none (some 1) [.mk none (some 2) []]

mutual
/-- All properties in the upward inheritance cone of a property, the
property itself included, in depth-first encounter order. -/
def coneNodes : PropertyInheritance → List PropertyInheritance
  | .mk n ps r => .mk n ps r :: coneNodesOver ps
def coneNodesOver : List PropertyInheritance → List PropertyInheritance
  | [] => []
  | p :: ps => coneNodes p ++ coneNodesOver ps
end

mutual
/-- Number of hits a shallow `inheritsPropertiesList` walk for the single
target `t` records below `a`: a node whose hash matches `t` counts once and
stops the descent on its branch; otherwise its parents are summed. -/
def shallowHits : PropertyInheritance → PropertyInheritance → Nat
  | .mk n ps r, t => if propHashEq t (.mk n ps r) then 1 else shallowHitsOver ps t
def shallowHitsOver : List PropertyInheritance → PropertyInheritance → Nat
  | [], _ => 0
  | p :: ps, t => shallowHits p t + shallowHitsOver ps t
end

mutual
/-- Number of hits a deep `inheritsPropertiesList` walk for the single
target `t` records below `a`: every matching node counts once and the walk
always continues into the parents. -/
def deepHits : PropertyInheritance → PropertyInheritance → Nat
  | .mk n ps r, t => (if propHashEq t (.mk n ps r) then 1 else 0) + deepHitsOver ps t
def deepHitsOver : List PropertyInheritance → PropertyInheritance → Nat
  | [], _ => 0
  | p :: ps, t => deepHits p t + deepHitsOver ps t
end

/-! Helper lemmas. -/

/-- Truthiness of the Python idiom `~b` for a boolean `b`: `~True` is -2 and
`~False` is -1, so the result is truthy for both values.  This single fact
drives most of the divergences found below. -/
theorem intTruthy_pyBitNot_bool (b : Bool) : intTruthy (pyBitNot (pyBool2Int b)) = true := by
  cases b <;> rfl

/-- Reference equality of properties coincides with equality of the
embedded trees (ids included). -/
theorem propIs_iff_eq : ∀ p q : PropertyInheritance, propIs p q = true ↔ p = q := by
  have key : ∀ n : Nat,
      (∀ p q : PropertyInheritance, sizeOf p < n → (propIs p q = true ↔ p = q)) ∧
      (∀ l m : List PropertyInheritance, sizeOf l < n → (propIsList l m = true ↔ l = m)) := by
    intro n
    induction n with
    | zero =>
      exact ⟨fun p q hp => absurd hp (Nat.not_lt_zero _),
        fun l m hl => absurd hl (Nat.not_lt_zero _)⟩
    | succ n ih =>
      constructor
      · intro p q hp
        cases p with
        | mk n1 ps1 r1 =>
          cases q with
          | mk n2 ps2 r2 =>
            have hps : sizeOf ps1 < n := by
              simp only [PropertyInheritance.mk.sizeOf_spec] at hp
              omega
            simp only [propIs, Bool.and_eq_true, beq_iff_eq,
              PropertyInheritance.mk.injEq]
            rw [ih.2 ps1 ps2 hps]
            tauto
      · intro l m hl
        cases l with
        | nil =>
          cases m with
          | nil => simp [propIsList]
          | cons b bs => simp [propIsList]
        | cons a as =>
          cases m with
          | nil => simp [propIsList]
          | cons b bs =>
            have ha : sizeOf a < n := by
              simp only [List.cons.sizeOf_spec] at hl
              omega
            have has : sizeOf as < n := by
              simp only [List.cons.sizeOf_spec] at hl
              omega
            simp only [propIsList, Bool.and_eq_true, List.cons.injEq]
            rw [ih.1 a b ha, ih.2 as bs has]
  intro p q
  exact (key (sizeOf p + 1)).1 p q (Nat.lt_succ_self _)

/-- Reference equality of expressions coincides with equality of the
embedded trees (ids included). -/
theorem pyExprEq_iff_eq : ∀ a b : Expression, pyExprEq a b = true ↔ a = b := by
  have key : ∀ n : Nat,
      (∀ a b : Expression, sizeOf a < n → (pyExprEq a b = true ↔ a = b)) ∧
      (∀ l m : List Expression, sizeOf l < n → (pyExprEqList l m = true ↔ l = m)) := by
    intro n
    induction n with
    | zero =>
      exact ⟨fun a b ha => absurd ha (Nat.not_lt_zero _),
        fun l m hl => absurd hl (Nat.not_lt_zero _)⟩
    | succ n ih =>
      constructor
      · intro a b ha
        cases a with
        | mk n1 p1 c1 r1 =>
          cases b with
          | mk n2 p2 c2 r2 =>
            have hc : sizeOf c1 < n := by
              simp only [Expression.mk.sizeOf_spec] at ha
              omega
            simp only [pyExprEq, Bool.and_eq_true, beq_iff_eq,
              Expression.mk.injEq, propIs_iff_eq]
            rw [ih.2 c1 c2 hc]
            tauto
      · intro l m hl
        cases l with
        | nil =>
          cases m with
          | nil => simp [pyExprEqList]
          | cons b bs => simp [pyExprEqList]
        | cons a as =>
          cases m with
          | nil => simp [pyExprEqList]
          | cons b bs =>
            have ha : sizeOf a < n := by
              simp only [List.cons.sizeOf_spec] at hl
              omega
            have has : sizeOf as < n := by
              simp only [List.cons.sizeOf_spec] at hl
              omega
            simp only [pyExprEqList, Bool.and_eq_true, List.cons.injEq]
            rw [ih.1 a b ha, ih.2 as bs has]
  intro a b
  exact (key (sizeOf a + 1)).1 a b (Nat.lt_succ_self _)

/-- Hash (fullName) equality is reflexive. -/
theorem propHashEq_refl : ∀ p : PropertyInheritance, propHashEq p p = true := by
  have key : ∀ n : Nat,
      (∀ p : PropertyInheritance, sizeOf p < n → propHashEq p p = true) ∧
      (∀ l : List PropertyInheritance, sizeOf l < n → propHashEqList l l = true) := by
    intro n
    induction n with
    | zero =>
      exact ⟨fun p hp => absurd hp (Nat.not_lt_zero _),
        fun l hl => absurd hl (Nat.not_lt_zero _)⟩
    | succ n ih =>
      constructor
      · intro p hp
        cases p with
        | mk n1 ps1 r1 =>
          have hps : sizeOf ps1 < n := by
            simp only [PropertyInheritance.mk.sizeOf_spec] at hp
            omega
          simp only [propHashEq, Bool.and_eq_true]
          exact ⟨by simp, ih.2 ps1 hps⟩
      · intro l hl
        cases l with
        | nil => simp [propHashEqList]
        | cons a as =>
          have ha : sizeOf a < n := by
            simp only [List.cons.sizeOf_spec] at hl
            omega
          have has : sizeOf as < n := by
            simp only [List.cons.sizeOf_spec] at hl
            omega
          simp only [propHashEqList, Bool.and_eq_true]
          exact ⟨ih.1 a ha, ih.2 as has⟩
  intro p
  exact (key (sizeOf p + 1)).1 p (Nat.lt_succ_self _)

/-- Specified structural equality is reflexive. -/
theorem structEq_refl : ∀ e : Expression, structEq e e = true := by
  have key : ∀ n : Nat,
      (∀ e : Expression, sizeOf e < n → structEq e e = true) ∧
      (∀ l : List Expression, sizeOf l < n → structEqList l l = true) := by
    intro n
    induction n with
    | zero =>
      exact ⟨fun e he => absurd he (Nat.not_lt_zero _),
        fun l hl => absurd hl (Nat.not_lt_zero _)⟩
    | succ n ih =>
      constructor
      · intro e he
        cases e with
        | mk n1 p1 c1 r1 =>
          have hc : sizeOf c1 < n := by
            simp only [Expression.mk.sizeOf_spec] at he
            omega
          simp only [structEq, Bool.and_eq_true]
          exact ⟨⟨by simp, propHashEq_refl p1⟩, ih.2 c1 hc⟩
      · intro l hl
        cases l with
        | nil => simp [structEqList]
        | cons a as =>
          have ha : sizeOf a < n := by
            simp only [List.cons.sizeOf_spec] at hl
            omega
          have has : sizeOf as < n := by
            simp only [List.cons.sizeOf_spec] at hl
            omega
          simp only [structEqList, Bool.and_eq_true]
          exact ⟨ih.1 a ha, ih.2 as has⟩
  intro e
  exact (key (sizeOf e + 1)).1 e (Nat.lt_succ_self _)

/-- `Rule.applyRule` always takes its first early return: the match test is
wrapped in the always-truthy `~`, so every call yields the input expression
unchanged. -/
theorem applyRule_ok (r : Rule) (e : Expression) : Rule.applyRule r e = Except.ok e := by
  simp [Rule.applyRule, intTruthy_pyBitNot_bool]

/-- A shallow inheritance walk returns one collected property per shallow
hit. -/
theorem hits_shallow : ∀ (a t : PropertyInheritance),
    (inheritsPropertiesList a [t] false).length = shallowHits a t := by
  have key : ∀ (n : Nat) (t : PropertyInheritance),
      (∀ a : PropertyInheritance, sizeOf a < n →
        (inheritsPropertiesList a [t] false).length = shallowHits a t) ∧
      (∀ l : List PropertyInheritance, sizeOf l < n →
        (inheritsPropertiesListOver l [t] false).length = shallowHitsOver l t) := by
    intro n t
    induction n with
    | zero =>
      exact ⟨fun a ha => absurd ha (Nat.not_lt_zero _),
        fun l hl => absurd hl (Nat.not_lt_zero _)⟩
    | succ n ih =>
      constructor
      · intro a ha
        cases a with
        | mk n1 ps1 r1 =>
          have hps : sizeOf ps1 < n := by
            simp only [PropertyInheritance.mk.sizeOf_spec] at ha
            omega
          cases hhit : propHashEq t (.mk n1 ps1 r1) with
          | false =>
            simp only [inheritsPropertiesList, shallowHits, List.any, hhit,
              Bool.or_false, Bool.not_false, if_true, if_false]
            exact ih.2 ps1 hps
          | true =>
            simp only [inheritsPropertiesList, shallowHits, List.any, hhit,
              Bool.or_false, Bool.not_true, if_true, if_false]
            rfl
      · intro l hl
        cases l with
        | nil => rfl
        | cons p ps =>
          have hp : sizeOf p < n := by
            simp only [List.cons.sizeOf_spec] at hl
            omega
          have hps : sizeOf ps < n := by
            simp only [List.cons.sizeOf_spec] at hl
            omega
          simp only [inheritsPropertiesListOver, shallowHitsOver, List.length_append]
          rw [ih.1 p hp, ih.2 ps hps]
  intro a t
  exact (key (sizeOf a + 1) t).1 a (Nat.lt_succ_self _)

/-- A deep inheritance walk returns one collected property per deep hit. -/
theorem hits_deep : ∀ (a t : PropertyInheritance),
    (inheritsPropertiesList a [t] true).length = deepHits a t := by
  have key : ∀ (n : Nat) (t : PropertyInheritance),
      (∀ a : PropertyInheritance, sizeOf a < n →
        (inheritsPropertiesList a [t] true).length = deepHits a t) ∧
      (∀ l : List PropertyInheritance, sizeOf l < n →
        (inheritsPropertiesListOver l [t] true).length = deepHitsOver l t) := by
    intro n t
    induction n with
    | zero =>
      exact ⟨fun a ha => absurd ha (Nat.not_lt_zero _),
        fun l hl => absurd hl (Nat.not_lt_zero _)⟩
    | succ n ih =>
      constructor
      · intro a ha
        cases a with
        | mk n1 ps1 r1 =>
          have hps : sizeOf ps1 < n := by
            simp only [PropertyInheritance.mk.sizeOf_spec] at ha
            omega
          have h2 := ih.2 ps1 hps
          cases hhit : propHashEq t (.mk n1 ps1 r1) with
          | false =>
            simp [inheritsPropertiesList, deepHits, List.any, hhit, h2]
          | true =>
            simp [inheritsPropertiesList, deepHits, List.any, hhit, h2]
            omega
      · intro l hl
        cases l with
        | nil => rfl
        | cons p ps =>
          have hp : sizeOf p < n := by
            simp only [List.cons.sizeOf_spec] at hl
            omega
          have hps : sizeOf ps < n := by
            simp only [List.cons.sizeOf_spec] at hl
            omega
          simp only [inheritsPropertiesListOver, deepHitsOver, List.length_append]
          rw [ih.1 p hp, ih.2 ps hps]
  intro a t
  exact (key (sizeOf a + 1) t).1 a (Nat.lt_succ_self _)

/-- If no property in the upward cone of `a` has the target hash, the
inheritance walk collects nothing. -/
theorem cone_empty : ∀ (a t : PropertyInheritance) (d : Bool),
    (∀ u, u ∈ coneNodes a → propHashEq t u = false) →
    inheritsPropertiesList a [t] d = [] := by
  have key : ∀ (n : Nat) (t : PropertyInheritance) (d : Bool),
      (∀ a : PropertyInheritance, sizeOf a < n →
        (∀ u, u ∈ coneNodes a → propHashEq t u = false) →
        inheritsPropertiesList a [t] d = []) ∧
      (∀ l : List PropertyInheritance, sizeOf l < n →
        (∀ u, u ∈ coneNodesOver l → propHashEq t u = false) →
        inheritsPropertiesListOver l [t] d = []) := by
    intro n t d
    induction n with
    | zero =>
      exact ⟨fun a ha => absurd ha (Nat.not_lt_zero _),
        fun l hl => absurd hl (Nat.not_lt_zero _)⟩
    | succ n ih =>
      constructor
      · intro a ha hcone
        cases a with
        | mk n1 ps1 r1 =>
          have hps : sizeOf ps1 < n := by
            simp only [PropertyInheritance.mk.sizeOf_spec] at ha
            omega
          have hself : propHashEq t (.mk n1 ps1 r1) = false := by
            apply hcone
            simp only [coneNodes]
            exact List.mem_cons_self _ _
          have hrest : ∀ u, u ∈ coneNodesOver ps1 → propHashEq t u = false := by
            intro u hu
            apply hcone
            simp only [coneNodes]
            exact List.mem_cons_of_mem _ hu
          simp only [inheritsPropertiesList, List.any, hself, Bool.or_false,
            Bool.not_false, if_true]
          exact ih.2 ps1 hps hrest
      · intro l hl hcone
        cases l with
        | nil => rfl
        | cons p ps =>
          have hp : sizeOf p < n := by
            simp only [List.cons.sizeOf_spec] at hl
            omega
          have hps : sizeOf ps < n := by
            simp only [List.cons.sizeOf_spec] at hl
            omega
          have h1 : ∀ u, u ∈ coneNodes p → propHashEq t u = false := by
            intro u hu
            apply hcone
            simp only [coneNodesOver]
            exact List.mem_append_left _ hu
          have h2 : ∀ u, u ∈ coneNodesOver ps → propHashEq t u = false := by
            intro u hu
            apply hcone
            simp only [coneNodesOver]
            exact List.mem_append_right _ hu
          simp only [inheritsPropertiesListOver]
          rw [ih.1 p hp h1, ih.2 ps hps h2]
          rfl
  intro a t d h
  exact (key (sizeOf a + 1) t d).1 a (Nat.lt_succ_self _) h

/-- The Python list comparison `[t] == r` (element-wise reference equality)
holds exactly when `r` is the one-element list holding `t` itself. -/
theorem propIsList_singleton (t : PropertyInheritance) (r : List PropertyInheritance) :
    propIsList [t] r = true ↔ r = [t] := by
  cases r with
  | nil => simp [propIsList]
  | cons u us =>
    cases us with
    | nil =>
      rw [show propIsList [t] [u] = propIs t u from by simp [propIsList]]
      rw [propIs_iff_eq]
      constructor
      · intro h
        rw [h]
      · intro h
        injection h with h1 h2
        exact h1.symm
    | cons v vs => simp [propIsList]

/-! Claim theorems. -/

/-- C1 (code bug): rule construction can never succeed.  On the valid
identity rule of scenario S1 — input and output both typed holes
`@0:Operator`, satisfying every validity condition of §4.5 — `makeRule`
raises `IndexError` out of the `[None]*maxIndex` sparse-array fill inside
`getPatternsOfIndices`; on an index-free rule built from literal anchors it
raises `ValueError` because `~self.checkValidRule()` is truthy for both
boolean results.  The output-side structure is moreover read from the input
pattern, not the output pattern. -/
theorem c1_makeRule_never_succeeds :
    makeRule "id" hole0Op hole0Op2 = Except.error PyErr.indexError ∧
    makeRule "lit" pLitOpX pLitOpX = Except.error PyErr.valueError :=
  ⟨rfl, rfl⟩

/-- C2 (code bug): scenario S2 does not rewrite.  `applyRule(wrap, X)`
returns `X` itself — the always-truthy `~` around the shape check takes the
non-match early return — and `X` is not structurally equal to the expected
`f(X)`. -/
theorem c2_wrap_returns_input_unchanged :
    Rule.applyRule wrapRule Xexpr = Except.ok Xexpr ∧ structEq Xexpr fX = false :=
  ⟨rfl, by decide⟩

/-- C3: `applyRule` never raises — it always produces a value — and when
the input pattern's shape check on the expression is false it returns the
original expression (the same object, hence in particular structurally
equal). -/
theorem c3_applyRule_total_and_identity (rule : Rule) (e : Expression) :
    (∃ v, Rule.applyRule rule e = Except.ok v) ∧
    (checkPatternProperties rule.inputPattern e = false →
      Rule.applyRule rule e = Except.ok e) :=
  ⟨⟨e, applyRule_ok rule e⟩, fun _ => applyRule_ok rule e⟩

/-- C3 witness: the rule `ruleB` (input hole of property `B`) does not
match the `A`-leaf `eX1`, and `applyRule` hands `eX1` back. -/
theorem c3_witness :
    checkPatternProperties ruleB.inputPattern eX1 = false ∧
    Rule.applyRule ruleB eX1 = Except.ok eX1 :=
  ⟨by decide, (c3_applyRule_total_and_identity ruleB eX1).2 (by decide)⟩

/-- C4 (code bug): `makePattern` rejects every call whose `index` is
absent, because the unguarded `if index < 0:` compares `None` with an
integer and raises `TypeError` — in particular the both-absent
"any subtree" form and the literal-with-no-index form are rejected.  The
literal subtype test that runs before the crash is moreover reversed: it
requires the pattern's property to inherit the literal's, so the
`Operator`-pattern around the `Hermitian` literal `X` (the claim's
accepted case) is rejected by that check already, while the
`Hermitian`-pattern around an `Operator` literal passes it and then hits
the `TypeError`. -/
theorem c4_makePattern_rejects_optional_index :
    makePattern none AP none none [] false 50 = Except.error PyErr.typeError ∧
    makePattern none OperatorP none (some Xexpr) [] false 51 =
      Except.error PyErr.typeError ∧
    makePattern none HermitianP none (some XOp) [] false 52 =
      Except.error PyErr.typeError ∧
    inheritsProperties HermitianP [OperatorP] false = true :=
  ⟨rfl, rfl, rfl, by decide⟩

/-- C5 (code bug): the sparse environment is not indexable at its maximal
index.  For the pattern holding exactly index 0, `getPatternsOfIndices`
allocates `[None]*maxIndex = []` and the fill at slot 0 raises
`IndexError`; and the identity rule applied to `X` never builds an
environment at all — the expression comes back unchanged instead of being
read back through the captures. -/
theorem c5_sparse_array_off_by_one :
    getPatternsOfIndices hole0Op = Except.error PyErr.indexError ∧
    getIndexList hole0Op = [0] ∧
    Rule.applyRule idRule Xexpr = Except.ok Xexpr :=
  ⟨rfl, rfl, rfl⟩

/-- C6 counterexample: the claim fails both ways on concrete inputs.  The
pattern `pLitB` carries the literal `eX1` itself, yet the shape check on
`eX1` is false because the property check still runs (the literal does not
win); and the pattern `pLitA` carries `eX1` while `eX2` is structurally
equal to that literal, yet the check is false because the comparison is
reference equality. -/
theorem c6_counterexample :
    structEq eX1 eX1 = true ∧ checkPatternProperties pLitB eX1 = false ∧
    structEq eX1 eX2 = true ∧ checkPatternProperties pLitA eX2 = false := by
  decide

/-- C6 (amended): at a literal pattern node a successful shape check forces
the expression to be the literal object itself (reference equality), and
the name check, the property check and the arity check are still applied at
that node and the check still descends into the child patterns — the
literal does not short-circuit. -/
theorem c6_literal_does_not_short_circuit (p : Pattern) (e lit : Expression)
    (h : p.expression = some lit) (hm : checkPatternProperties p e = true) :
    lit = e ∧
    (∀ nm, p.name = some nm → nm = e.name) ∧
    inheritsProperties e.propertyInheritance [p.propertyInheritance] false = true ∧
    (decide (e.expressions.length < p.childPatterns.length) ||
      (decide (e.expressions.length > p.childPatterns.length) && p.checkLabels)) = false ∧
    checkPatternPropertiesOver p.childPatterns e.expressions = true := by
  cases p with
  | mk n pr idx ex cs cl r =>
    simp only [Pattern.expression] at h
    subst h
    simp only [checkPatternProperties, Bool.and_eq_true] at hm
    obtain ⟨hlocal, hover⟩ := hm
    simp only [checkExpressionWithPatternProperties, Pattern.expression, Pattern.name,
      Pattern.propertyInheritance, Pattern.childPatterns, Pattern.checkLabels,
      Bool.and_eq_true] at hlocal
    obtain ⟨⟨⟨hlit, hname⟩, hprop⟩, harity⟩ := hlocal
    simp only [Pattern.name, Pattern.propertyInheritance, Pattern.childPatterns,
      Pattern.checkLabels]
    refine ⟨(pyExprEq_iff_eq lit e).mp hlit, ?_, hprop, ?_, hover⟩
    · intro nm hnm
      subst hnm
      simpa using hname
    · cases hcond : (decide (e.expressions.length < cs.length) ||
          (decide (e.expressions.length > cs.length) && cl)) with
      | false => rfl
      | true =>
        rw [hcond] at harity
        exact absurd harity (by decide)

/-- C6 witness: `pLitA` matched against its own literal object `eX1`. -/
theorem c6_witness :
    eX1 = eX1 ∧
    (∀ nm, pLitA.name = some nm → nm = eX1.name) ∧
    inheritsProperties eX1.propertyInheritance [pLitA.propertyInheritance] false = true ∧
    (decide (eX1.expressions.length < pLitA.childPatterns.length) ||
      (decide (eX1.expressions.length > pLitA.childPatterns.length) && pLitA.checkLabels)) = false ∧
    checkPatternPropertiesOver pLitA.childPatterns eX1.expressions = true :=
  c6_literal_does_not_short_circuit pLitA eX1 eX1 rfl (by decide)

/-- C7 (code bug): on the non-linear scenario S3 — pattern `Add(@0, @0)`
against `Add(X, Y)` with structurally unequal `X`, `Y` — the capture
extraction raises `ValueError` instead of returning an inconsistent
environment: the local shape check at the top succeeds, but the recursion
for the first child runs the Expression-side extraction whose self-check is
guarded by the always-truthy `~`.  (The child flags are moreover overwritten
rather than conjoined on the way up.) -/
theorem c7_capture_extraction_raises :
    patGetExpressionsFromPattern addPat AddXY = Except.error PyErr.valueError ∧
    checkExpressionWithPatternProperties addPat AddXY = true ∧
    structEq Xexpr Yexpr = false :=
  ⟨rfl, by decide, by decide⟩

/-- C8 counterexample: in the diamond lattice `dD <: dB, dC <: dA` the
property `dA` is an ancestor of `dD` (indeed `dB` inherits `dA` and `dD`
inherits `dB`), yet both `inherits` calls on `dD` with target `dA` return
false, because the walk finds `dA` along both paths and compares the
two-element hit list against `[dA]`. -/
theorem c8_counterexample :
    inheritsProperties dB [dA] false = true ∧
    inheritsProperties dB [dA] true = true ∧
    inheritsProperties dD [dB] false = true ∧
    inheritsProperties dD [dA] false = false ∧
    inheritsProperties dD [dA] true = false := by
  decide

/-- C8 (amended): for a single target `t`, `inherits` returns true exactly
when the collected hit list is the one-element list holding the object `t`;
consequently it is false whenever no cone member has the target's full
name, and also false whenever `t`'s full name is found two or more times —
as happens in a diamond where `t` is reachable along more than one path. -/
theorem c8_inherits_single_path (a t : PropertyInheritance) :
    ((∀ u, u ∈ coneNodes a → propHashEq t u = false) →
      inheritsProperties a [t] false = false ∧ inheritsProperties a [t] true = false) ∧
    (2 ≤ shallowHits a t → inheritsProperties a [t] false = false) ∧
    (2 ≤ deepHits a t → inheritsProperties a [t] true = false) ∧
    (inheritsProperties a [t] false = true ↔
      inheritsPropertiesList a [t] false = [t]) ∧
    (inheritsProperties a [t] true = true ↔
      inheritsPropertiesList a [t] true = [t]) := by
  refine ⟨?_, ?_, ?_, ?_, ?_⟩
  · intro h
    constructor
    · unfold inheritsProperties
      rw [cone_empty a t false h]
      rfl
    · unfold inheritsProperties
      rw [cone_empty a t true h]
      rfl
  · intro h2
    cases hb : inheritsProperties a [t] false with
    | false => rfl
    | true =>
      exfalso
      unfold inheritsProperties at hb
      have hl := (propIsList_singleton t _).mp hb
      have hlen := hits_shallow a t
      rw [hl] at hlen
      simp only [List.length_singleton] at hlen
      omega
  · intro h2
    cases hb : inheritsProperties a [t] true with
    | false => rfl
    | true =>
      exfalso
      unfold inheritsProperties at hb
      have hl := (propIsList_singleton t _).mp hb
      have hlen := hits_deep a t
      rw [hl] at hlen
      simp only [List.length_singleton] at hlen
      omega
  · unfold inheritsProperties
    exact propIsList_singleton t _
  · unfold inheritsProperties
    exact propIsList_singleton t _

/-- C8 witness: the diamond top `dD` records two shallow hits for `dA`, and
the theorem then yields the false verdict. -/
theorem c8_witness :
    2 ≤ shallowHits dD dA ∧ inheritsProperties dD [dA] false = false :=
  ⟨by decide, (c8_inherits_single_path dD dA).2.1 (by decide)⟩

/-- C9 counterexample: `eX1` and `eX2` are structurally equal (same name,
same property, no children) but distinct objects; the equality the matcher
actually uses — here through the literal-anchor comparison of `pLitA` —
treats them as unequal. -/
theorem c9_counterexample :
    structEq eX1 eX2 = true ∧ pyExprEq eX1 eX2 = false ∧
    checkExpressionWithPatternProperties pLitA eX2 = false := by
  decide

/-- C9 (amended): the equality used by the matcher's literal comparison and
collision check is reference equality — it holds exactly for the same
object, and the same object is in particular structurally equal, but not
conversely. -/
theorem c9_matcher_equality_is_identity (a b : Expression) :
    (pyExprEq a b = true ↔ a = b) ∧ (pyExprEq a b = true → structEq a b = true) :=
  ⟨pyExprEq_iff_eq a b,
   fun h => by
    rw [(pyExprEq_iff_eq a b).mp h]
    exact structEq_refl b⟩

/-- C9 witness: `eX1` compared with itself. -/
theorem c9_witness : pyExprEq eX1 eX1 = true ∧ structEq eX1 eX1 = true :=
  ⟨(c9_matcher_equality_is_identity eX1 eX1).1.mpr rfl,
   (c9_matcher_equality_is_identity eX1 eX1).2 (by decide)⟩

/-- C10 (code bug): instantiation mutates existing expressions.  With the
output pattern whose literal is the heap expression `g(a)` (node 1) and
whose single child pattern is the literal `b` (node 2), the instantiation
loop assigns through the seed's aliased child list: in the resulting heap
node 1 — the pattern's stored literal — has child `[3]` (the fresh copy of
`b`) instead of its original `[0]`. -/
theorem c10_instantiation_mutates_seed :
    hExpressionFromReplacements mutPat [] mutHeap =
      Except.ok (4, [ENode.mk "a" AP [], ENode.mk "g" AP [3], ENode.mk "b" AP [],
        ENode.mk "b" AP [], ENode.mk "g" AP [3]]) ∧
    mutHeap.get? 1 = some (ENode.mk "g" AP [0]) :=
  ⟨rfl, rfl⟩

end AlgEnv
